import Mathlib

/-
  Verification of the reconciliation engine of LedgerCompare (src/app.py).

  The engine consists of the field normalizer (extract_date, clean_amount),
  the ledger loader (load_and_prepare_data), the per-date aggregator
  (compare_by_date, and its reverse-direction inline copy in the dashboard),
  and the row-level transaction matcher (compare_transactions_detail).

  Modelling conventions:
  - pandas DataFrames become Lean lists; the positional integer index of a
    DataFrame row is carried explicitly where the source code uses it
    (iterrows / drop by label).
  - NaN cells and NaT dates become Option / a dedicated null constructor.
  - float amounts become exact rationals; the source compares amounts with
    exact ==, which exact rational equality mirrors for the decimal literals
    that occur in ledgers.
  - Korean status strings are modelled by the Status inductive:
    "일치" = Status.matched, "불일치" = Status.mismatched, "미매칭" = Status.unmatched,
    and the match_filter strings "모두"/"일치"/"불일치" by MatchFilter.
-/

namespace LedgerCompare

/-- Calendar date at day granularity, the payload of a parsed `%Y/%m/%d` value. -/
structure CalDate where
  year : Nat
  month : Nat
  day : Nat
deriving DecidableEq

/-- Chronological order on dates (the order pandas uses on Timestamps):
lexicographic on year, then month, then day. -/
def CalDate.le (a b : CalDate) : Prop :=
  a.year < b.year ∨
    (a.year = b.year ∧ (a.month < b.month ∨ (a.month = b.month ∧ a.day ≤ b.day)))

instance (a b : CalDate) : Decidable (CalDate.le a b) := by
  unfold CalDate.le; exact inferInstance

instance : IsTotal CalDate CalDate.le :=
  ⟨by intro a b; unfold CalDate.le; omega⟩

instance : IsTrans CalDate CalDate.le :=
  ⟨by intro a b c hab hbc; unfold CalDate.le at hab hbc ⊢; omega⟩

/-- A raw spreadsheet cell as the normalizer sees it: missing (NaN), a string,
or a numeric cell (ledger amounts are integral in the source format). -/
inductive RawValue where
  | null : RawValue
  | str (s : String) : RawValue
  | int (n : Int) : RawValue
deriving DecidableEq

/-- Python `str(value)`, used by the source only after the null guard. -/
def rawToString : RawValue → String
  | .null => ""
  | .str s => s
  | .int n => toString n

/-- Python `str.strip()`: remove leading and trailing whitespace. -/
def stripChars (s : String) : String :=
  String.mk (((s.data.dropWhile Char.isWhitespace).reverse.dropWhile Char.isWhitespace).reverse)

/-- Python `str.replace(c, "")`: drop every occurrence of the character. -/
def removeAll (c : Char) (s : String) : String :=
  String.mk (s.data.filter (fun x => ¬ x = c))

/-- Split a character list at every occurrence of `c`
(Python `str.split(sep)` semantics: empty pieces are kept). -/
def splitOnChar (c : Char) : List Char → List (List Char)
  | [] => [[]]
  | x :: xs =>
      if x = c then [] :: splitOnChar c xs
      else
        match splitOnChar c xs with
        | [] => [[x]]
        | g :: gs => (x :: g) :: gs

/-- Whitespace-separated tokens, Python `str.split()` with no argument:
runs of whitespace separate tokens and no empty token is produced.
The second argument accumulates the current token in reverse. -/
def wsTokens : List Char → List Char → List (List Char)
  | [], acc => if acc = [] then [] else [acc.reverse]
  | x :: xs, acc =>
      if x.isWhitespace then
        if acc = [] then wsTokens xs [] else acc.reverse :: wsTokens xs []
      else wsTokens xs (x :: acc)

/-- First whitespace-separated token of a string, if any
(`date_string.split()[0]` guarded by the emptiness check in the source). -/
def firstToken (s : String) : Option String :=
  ((wsTokens s.data []).map String.mk).head?

/-- Numeric value of a digit string. -/
def digitsVal (cs : List Char) : Nat :=
  cs.foldl (fun n c => 10 * n + (c.toNat - 48)) 0

/-- Parse a string of exactly `len` decimal digit characters. -/
def fixedDigits (len : Nat) (cs : List Char) : Option Nat :=
  if cs.length = len ∧ cs.all Char.isDigit then some (digitsVal cs) else none

def isLeap (y : Nat) : Bool :=
  (y % 4 == 0 && y % 100 != 0) || y % 400 == 0

def daysInMonth (y m : Nat) : Nat :=
  if m = 2 then (if isLeap y then 29 else 28)
  else if m = 4 ∨ m = 6 ∨ m = 9 ∨ m = 11 then 30
  else 31

/-- Calendar validity as enforced by the datetime library used at src/app.py:49
(year at least 1, real month, real day of that month). -/
def CalDate.valid (d : CalDate) : Bool :=
  decide (1 ≤ d.year) && decide (1 ≤ d.month) && decide (d.month ≤ 12) &&
    decide (1 ≤ d.day) && decide (d.day ≤ daysInMonth d.year d.month)

/-- Models the strict date parse `pd.to_datetime(date_part, format="%Y/%m/%d")`
at src/app.py:49, following the spec's description of that pattern: 4-digit
year, 2-digit month and 2-digit day separated by slashes, rejected unless the
values form a valid calendar date; any failure yields none (the bare except
in the source maps every parse error to NaT). -/
def parse_ymd (t : String) : Option CalDate :=
  match splitOnChar '/' t.data with
  | [ys, ms, ds] =>
    match fixedDigits 4 ys, fixedDigits 2 ms, fixedDigits 2 ds with
    | some y, some m, some dy =>
        if (CalDate.mk y m dy).valid then some (CalDate.mk y m dy) else none
    | _, _, _ => none
  | _ => none

/-- src/app.py:21 `extract_date`: NaN or the empty string give NaT; otherwise
convert to string, strip, take the first whitespace-separated token and parse
it strictly as `%Y/%m/%d`, with NaT on any failure. -/
def extract_date (v : RawValue) : Option CalDate :=
  if v = RawValue.null ∨ v = RawValue.str "" then none
  else
    match firstToken (stripChars (rawToString v)) with
    | none => none
    | some t => parse_ymd t

/-- The decimal-number grammar accepted by Python `float()` restricted to the
forms the ledger data exercises: optional sign, integer digits, optional
fractional part (exponent and special forms never occur in amounts and are
not modelled). -/
def parseDecimal (s : String) : Option ℚ :=
  let body : ℚ × List Char :=
    match s.data with
    | '-' :: rest => (-1, rest)
    | '+' :: rest => (1, rest)
    | cs => (1, cs)
  match splitOnChar '.' body.2 with
  | [ip] =>
      if ¬ ip = [] ∧ ip.all Char.isDigit then some (body.1 * (digitsVal ip : ℚ))
      else none
  | [ip, fp] =>
      if (¬ ip = [] ∨ ¬ fp = []) ∧ ip.all Char.isDigit ∧ fp.all Char.isDigit then
        some (body.1 * ((digitsVal ip : ℚ) + (digitsVal fp : ℚ) / (10 : ℚ) ^ fp.length))
      else none
  | _ => none

/-- src/app.py:54 `clean_amount`: NaN or the empty string give 0.0; otherwise
convert to string, strip whitespace, remove every comma, parse as a float,
and 0.0 on any failure. -/
def clean_amount (v : RawValue) : ℚ :=
  if v = RawValue.null ∨ v = RawValue.str "" then 0
  else
    match parseDecimal (removeAll ',' (stripChars (rawToString v))) with
    | some q => q
    | none => 0

/-- A normalized ledger row after load_and_prepare_data: the parsed date
(none models NaT before the dropna step; loaded ledgers only contain some),
the description kept raw, and the five normalized amounts. -/
structure TransactionRecord where
  date : Option CalDate
  product_info : RawValue
  sale_amount : ℚ
  collection_amount : ℚ
  purchase_amount : ℚ
  payment_amount : ℚ
  balance : ℚ
deriving DecidableEq

/-- One of the five amount columns of a ledger. -/
inductive AmountField where
  | sale_amount | collection_amount | purchase_amount | payment_amount | balance
deriving DecidableEq

def TransactionRecord.field (r : TransactionRecord) : AmountField → ℚ
  | .sale_amount => r.sale_amount
  | .collection_amount => r.collection_amount
  | .purchase_amount => r.purchase_amount
  | .payment_amount => r.payment_amount
  | .balance => r.balance

/-- One raw 7-column row of the uploaded table, after the fixed skiprows and
positional column selection of src/app.py:123-126. -/
structure RawRow where
  c0 : RawValue
  c1 : RawValue
  c2 : RawValue
  c3 : RawValue
  c4 : RawValue
  c5 : RawValue
  c6 : RawValue
deriving DecidableEq

/-- The row after `df["date"] = df["date"].apply(extract_date)` (src/app.py:133):
date parsed, amount columns still raw. -/
structure StagedRow where
  date : Option CalDate
  c1 : RawValue
  c2 : RawValue
  c3 : RawValue
  c4 : RawValue
  c5 : RawValue
  c6 : RawValue
deriving DecidableEq

def stageRow (r : RawRow) : StagedRow :=
  { date := extract_date r.c0, c1 := r.c1, c2 := r.c2, c3 := r.c3,
    c4 := r.c4, c5 := r.c5, c6 := r.c6 }

/-- Amount cleaning applied to the five amount columns (src/app.py:139-141). -/
def finishRow (s : StagedRow) : TransactionRecord :=
  { date := s.date, product_info := s.c1,
    sale_amount := clean_amount s.c2, collection_amount := clean_amount s.c3,
    purchase_amount := clean_amount s.c4, payment_amount := clean_amount s.c5,
    balance := clean_amount s.c6 }

/-- src/app.py:97 `load_and_prepare_data`, the data pipeline after the file has
been read: parse the date column, drop every row whose date is NaT, clean the
amount columns, and re-index sequentially from zero (list position). -/
def load_and_prepare_data (rows : List RawRow) : List TransactionRecord :=
  ((rows.map stageRow).filter (fun s => s.date.isSome)).map finishRow

/-- Sum of one declared amount field over the records of one ledger carrying
one given date (the value the date-wise groupby sum produces for a present
date, and 0 for an absent one, which is also what fillna(0) substitutes). -/
def dateSum (recs : List TransactionRecord) (f : AmountField) (dd : CalDate) : ℚ :=
  ((recs.filter (fun r => r.date = some dd)).map (fun r => r.field f)).sum

/-- The distinct dates of a ledger in ascending order: the group keys of
`df.groupby("date")` (pandas sorts group keys and drops NaT keys). -/
def groupKeys (recs : List TransactionRecord) : List CalDate :=
  List.insertionSort CalDate.le (recs.filterMap (fun r => r.date)).dedup

/-- `df.groupby("date")[field].sum().reset_index()` (src/app.py:168,172):
one (date, sum) pair per distinct date of the ledger, ascending. -/
def groupSum (recs : List TransactionRecord) (f : AmountField) : List (CalDate × ℚ) :=
  (groupKeys recs).map (fun dd => (dd, dateSum recs f dd))

/-- Lookup of a date in one grouped-sum table; none models the NaN that the
outer merge leaves for a date absent from that side. -/
def lookupSum (g : List (CalDate × ℚ)) (dd : CalDate) : Option ℚ :=
  (g.find? (fun p => p.1 = dd)).map (fun p => p.2)

/-- One output row of the per-date aggregation (columns date,
sale_amount_file1, purchase_amount_file2, difference, is_match in the
source; the amount columns are named generically here because the same
pipeline is run in both directions). -/
structure DateComparisonRow where
  date : CalDate
  amount_a : ℚ
  amount_b : ℚ
  difference : ℚ
  is_match : Bool
deriving DecidableEq

/-- The union of the two key sets of the full outer merge on date
(src/app.py:176), in ascending order; the source's final
`sort_values("date")` makes the output ascending regardless of the order
the merge itself produces, so the key list is built sorted directly. -/
def mergedKeys (df1 df2 : List TransactionRecord) : List CalDate :=
  List.insertionSort CalDate.le ((groupKeys df1) ++ (groupKeys df2)).dedup

/-- The output row the aggregation builds for one date of the merged key
set: the fillna(0) sums of both sides, their difference, and the exact
equality flag (src/app.py:179-185). -/
def aggRow (df1 : List TransactionRecord) (f1 : AmountField)
    (df2 : List TransactionRecord) (f2 : AmountField) (dd : CalDate) : DateComparisonRow :=
  { date := dd
    amount_a := (lookupSum (groupSum df1 f1) dd).getD 0
    amount_b := (lookupSum (groupSum df2 f2) dd).getD 0
    difference :=
      (lookupSum (groupSum df1 f1) dd).getD 0 - (lookupSum (groupSum df2 f2) dd).getD 0
    is_match :=
      decide ((lookupSum (groupSum df1 f1) dd).getD 0
        - (lookupSum (groupSum df2 f2) dd).getD 0 = 0) }

/-- The per-date aggregation pipeline of src/app.py:153-190 (and of its
inline reverse-direction copy at src/app.py:549-564): group both ledgers by
date summing the declared field, full outer join on date, fillna(0),
difference and is_match columns, sort ascending by date. -/
def aggregate (df1 : List TransactionRecord) (f1 : AmountField)
    (df2 : List TransactionRecord) (f2 : AmountField) : List DateComparisonRow :=
  (mergedKeys df1 df2).map (aggRow df1 f1 df2 f2)

/-- src/app.py:153 `compare_by_date`: file1 sale totals against file2
purchase totals. -/
def compare_by_date (df1 df2 : List TransactionRecord) : List DateComparisonRow :=
  aggregate df1 AmountField.sale_amount df2 AmountField.purchase_amount

/-- The reverse-direction aggregation built inline in the dashboard at
src/app.py:549-564: file2 sale totals against file1 purchase totals. -/
def comparison_reverse (df1 df2 : List TransactionRecord) : List DateComparisonRow :=
  aggregate df2 AmountField.sale_amount df1 AmountField.purchase_amount

/-- Row status: "일치" (matched), "불일치" (mismatched), "미매칭" (unmatched). -/
inductive Status where
  | matched | mismatched | unmatched
deriving DecidableEq

/-- The four compare_type selections of src/app.py:216-235, by the field pair
they select: forward sale-vs-purchase, reverse sale-vs-purchase, forward
collection-vs-payment, reverse collection-vs-payment. -/
inductive CompareType where
  | salePurchase | salePurchaseRev | collectionPayment | collectionPaymentRev
deriving DecidableEq

/-- The column read from file1 (`col1_file1` in the source). -/
def col1_file1 : CompareType → AmountField
  | .salePurchase => .sale_amount
  | .salePurchaseRev => .purchase_amount
  | .collectionPayment => .collection_amount
  | .collectionPaymentRev => .payment_amount

/-- The column read from file2 (`col1_file2` in the source). -/
def col1_file2 : CompareType → AmountField
  | .salePurchase => .purchase_amount
  | .salePurchaseRev => .sale_amount
  | .collectionPayment => .payment_amount
  | .collectionPaymentRev => .collection_amount

/-- The match_filter argument: "모두" (all), "일치" (matched only),
"불일치" (everything whose status is not matched). -/
inductive MatchFilter where
  | all | matchedOnly | nonMatched
deriving DecidableEq

/-- One matcher output row (the dict appended to result_rows). The fields
idx1 and idx2 record which DataFrame row labels (the idx1 / idx2 loop
variables of the source) the row was built from — none on a side shown as
"-"/0. They carry the provenance the source manipulates through
processed_indices and are not part of the displayed columns; filtering and
sorting never read them. -/
structure MatchResult where
  match_id : Nat
  desc1 : RawValue
  amt1 : ℚ
  desc2 : RawValue
  amt2 : ℚ
  status : Status
  idx1 : Option Nat
  idx2 : Option Nat
deriving DecidableEq

/-- `df2_filtered[df2_filtered[col1_file2] == row1[col1_file1]]`
(src/app.py:244): every file2 filtered row whose declared field equals the
given amount. -/
def matchingRows (df2f : List (Nat × TransactionRecord)) (f2 : AmountField)
    (amt : ℚ) : List (Nat × TransactionRecord) :=
  df2f.filter (fun q => q.2.field f2 = amt)

/-- The rows emitted by the inner loop at src/app.py:248-258 for one file1
record with a nonempty matching set; n is len(result_rows) before the loop. -/
def matchedRowsFor (n i1 : Nat) (r1 : TransactionRecord) (f1 f2 : AmountField)
    (ms : List (Nat × TransactionRecord)) : List MatchResult :=
  ms.enum.map (fun q =>
    { match_id := n + q.1 + 1
      desc1 := r1.product_info
      amt1 := r1.field f1
      desc2 := q.2.2.product_info
      amt2 := q.2.2.field f2
      status := if r1.field f1 = q.2.2.field f2 then Status.matched else Status.mismatched
      idx1 := some i1
      idx2 := some q.2.1 })

/-- The row emitted at src/app.py:261-268 when a file1 record has no match:
file2 side shown as "-" and 0, status unmatched. -/
def unmatchedRowA (n i1 : Nat) (r1 : TransactionRecord) (f1 : AmountField) : MatchResult :=
  { match_id := n + 1, desc1 := r1.product_info, amt1 := r1.field f1,
    desc2 := RawValue.str "-", amt2 := 0, status := Status.unmatched,
    idx1 := some i1, idx2 := none }

/-- The loop over file1's filtered rows (src/app.py:242-268): returns the
emitted rows and the processed_indices list. The counter n threads
len(result_rows), which the source uses as the 거래번호 (match_id) of the next
row. The matching set is computed against the full df2_filtered each time;
df2_filtered is only reduced after this loop. -/
def pass1 (df2f : List (Nat × TransactionRecord)) (f1 f2 : AmountField) :
    List (Nat × TransactionRecord) → Nat → List MatchResult × List Nat
  | [], _ => ([], [])
  | p :: rest, n =>
    if 0 < (matchingRows df2f f2 (p.2.field f1)).length then
      ((matchedRowsFor n p.1 p.2 f1 f2 (matchingRows df2f f2 (p.2.field f1))) ++
          (pass1 df2f f1 f2 rest (n + (matchingRows df2f f2 (p.2.field f1)).length)).1,
        ((matchingRows df2f f2 (p.2.field f1)).map Prod.fst) ++
          (pass1 df2f f1 f2 rest (n + (matchingRows df2f f2 (p.2.field f1)).length)).2)
    else
      (unmatchedRowA n p.1 p.2 f1 :: (pass1 df2f f1 f2 rest (n + 1)).1,
        (pass1 df2f f1 f2 rest (n + 1)).2)

/-- The leftover pass at src/app.py:274-282: one unmatched row per remaining
file2 record, file1 side shown as "-" and 0. -/
def leftoverRows (n : Nat) (f2 : AmountField)
    (rem : List (Nat × TransactionRecord)) : List MatchResult :=
  rem.enum.map (fun q =>
    { match_id := n + q.1 + 1, desc1 := RawValue.str "-", amt1 := 0,
      desc2 := q.2.2.product_info, amt2 := q.2.2.field f2,
      status := Status.unmatched, idx1 := none, idx2 := some q.2.1 })

/-- `df[df["date"] == date_selected]` keeping the original row labels
(src/app.py:210-211): the enumerated rows whose date equals the query date. -/
def filteredByDate (df : List TransactionRecord) (d : CalDate) :
    List (Nat × TransactionRecord) :=
  df.enum.filter (fun p => p.2.date = some d)

/-- Everything appended to result_rows, in emission order: the file1 pass,
then (after dropping the processed labels from df2_filtered,
src/app.py:271) the leftover pass. -/
def emittedRows (df1 df2 : List TransactionRecord) (d : CalDate)
    (ct : CompareType) : List MatchResult :=
  (pass1 (filteredByDate df2 d) (col1_file1 ct) (col1_file2 ct) (filteredByDate df1 d) 0).1 ++
    leftoverRows
      (pass1 (filteredByDate df2 d) (col1_file1 ct) (col1_file2 ct) (filteredByDate df1 d) 0).1.length
      (col1_file2 ct)
      ((filteredByDate df2 d).filter (fun q =>
        ¬ q.1 ∈ (pass1 (filteredByDate df2 d) (col1_file1 ct) (col1_file2 ct)
          (filteredByDate df1 d) 0).2))

/-- The match_filter application at src/app.py:293-296: "일치" keeps rows with
status matched, "불일치" keeps rows whose status is not matched. -/
def applyFilter : MatchFilter → List MatchResult → List MatchResult
  | .all, rows => rows
  | .matchedOnly, rows => rows.filter (fun r => r.status = Status.matched)
  | .nonMatched, rows => rows.filter (fun r => ¬ r.status = Status.matched)

/-- The status_order mapping at src/app.py:299:
불일치 (mismatched) 0, 미매칭 (unmatched) 1, 일치 (matched) 2. -/
def status_order : Status → Nat
  | .mismatched => 0
  | .unmatched => 1
  | .matched => 2

/-- `detail_df.sort_values("sort_key")` (src/app.py:301) for the three-valued
sort key, modelled as the stable sort by that key: the bucket of each key
value in turn, each bucket in the original order. The source's sort uses
the library default sort kind, which does not guarantee a stable
permutation for equal keys, so of this model only the properties that are
invariant under every key-sorted permutation — the row multiset, row
membership, and row counts — are read as guarantees of the source. -/
def sortByStatus (rows : List MatchResult) : List MatchResult :=
  rows.filter (fun r => status_order r.status = 0) ++
    rows.filter (fun r => status_order r.status = 1) ++
    rows.filter (fun r => status_order r.status = 2)

/-- src/app.py:193 `compare_transactions_detail`: filter both ledgers to the
query date, run the greedy amount-matching passes, apply the match filter,
and sort by status priority. -/
def compare_transactions_detail (df1 df2 : List TransactionRecord) (d : CalDate)
    (ct : CompareType) (mf : MatchFilter) : List MatchResult :=
  sortByStatus (applyFilter mf (emittedRows df1 df2 d ct))

/-! ### Field normalizer properties -/

theorem parse_ymd_valid (t : String) (dv : CalDate) (h : parse_ymd t = some dv) :
    dv.valid = true := by
  unfold parse_ymd at h
  repeat' split at h
  all_goals simp_all

theorem extract_date_valid (v : RawValue) (dv : CalDate)
    (h : extract_date v = some dv) : dv.valid = true := by
  unfold extract_date at h
  split at h
  · exact absurd h (by simp)
  · split at h
    · exact absurd h (by simp)
    · exact parse_ymd_valid _ _ h

/-- C8: date parsing returns no-date on null or empty input; otherwise it
trims, takes the first whitespace-separated token and parses it strictly as
a 4-digit-year/2-digit-month/2-digit-day slash date, returning no-date on
any failure including invalid calendar values; "2022/01/03 -13" parses to
2022-01-03 and "2022/13/40" to no-date, and every successfully parsed date
is calendar-valid. -/
theorem extract_date_spec :
    extract_date RawValue.null = none ∧
    extract_date (RawValue.str "") = none ∧
    extract_date (RawValue.str "2022/01/03 -13") = some ⟨2022, 1, 3⟩ ∧
    extract_date (RawValue.str "2022/13/40") = none ∧
    extract_date (RawValue.str "  2022/01/03  ") = some ⟨2022, 1, 3⟩ ∧
    (∀ s : String, ¬ s = "" →
      extract_date (RawValue.str s) =
        match firstToken (stripChars s) with
        | none => none
        | some t => parse_ymd t) ∧
    ∀ v dv, extract_date v = some dv → dv.valid = true := by
  refine ⟨by decide, by decide, by decide, by decide, by decide, ?_, extract_date_valid⟩
  intro s hs
  unfold extract_date
  rw [if_neg]
  · rfl
  · simp [hs]

theorem extract_date_spec_witness : CalDate.valid ⟨2022, 1, 3⟩ = true :=
  extract_date_spec.2.2.2.2.2.2 (RawValue.str "2022/01/03 -13") ⟨2022, 1, 3⟩ (by decide)

/-- C9: amount parsing returns 0 on null or empty input; otherwise it
converts to string, trims, removes every comma and parses the residue as a
decimal number, with 0 on failure; "1,000,000" and the numeric 1000000 both
give 1000000, and "", null and "abc" give 0. -/
theorem clean_amount_spec :
    clean_amount RawValue.null = 0 ∧
    clean_amount (RawValue.str "") = 0 ∧
    clean_amount (RawValue.str "abc") = 0 ∧
    clean_amount (RawValue.str "1,000,000") = 1000000 ∧
    clean_amount (RawValue.int 1000000) = 1000000 ∧
    ∀ s : String, ¬ s = "" →
      clean_amount (RawValue.str s) = (parseDecimal (removeAll ',' (stripChars s))).getD 0 := by
  refine ⟨by decide, by decide, ?_, ?_, ?_, ?_⟩
  · simp +decide [clean_amount, parseDecimal, removeAll, stripChars, rawToString, splitOnChar,
      digitsVal]
  · simp +decide [clean_amount, parseDecimal, removeAll, stripChars, rawToString, splitOnChar,
      digitsVal]
  · have step : clean_amount (RawValue.int 1000000) = clean_amount (RawValue.str "1000000") := rfl
    rw [step]
    simp +decide [clean_amount, parseDecimal, removeAll, stripChars, rawToString, splitOnChar,
      digitsVal]
  · intro s hs
    unfold clean_amount
    rw [if_neg]
    · show (match parseDecimal (removeAll ',' (stripChars s)) with
        | some q => q
        | none => 0) = _
      cases parseDecimal (removeAll ',' (stripChars s)) <;> rfl
    · simp [hs]

theorem clean_amount_spec_witness :
    clean_amount (RawValue.str "12") = (parseDecimal (removeAll ',' (stripChars "12"))).getD 0 :=
  clean_amount_spec.2.2.2.2.2 "12" (by decide)

/-! ### Ledger loader properties -/

theorem staged_filter_map_date (l : List StagedRow) :
    (((l.filter (fun s => s.date.isSome)).map finishRow).map (fun r => r.date))
      = (l.map (fun s => s.date)).filter Option.isSome := by
  induction l with
  | nil => rfl
  | cons s rest ih =>
    by_cases h : s.date.isSome
    · simp only [List.filter_cons, List.map_cons, h, if_pos, List.map_cons]
      exact congrArg (List.cons s.date) ih
    · simp only [List.filter_cons, List.map_cons, h, if_neg, Bool.false_eq_true,
        not_false_iff]
      simpa using ih

theorem load_map_date (rows : List RawRow) :
    (load_and_prepare_data rows).map (fun r => r.date)
      = (rows.map (fun r => extract_date r.c0)).filter Option.isSome := by
  unfold load_and_prepare_data
  rw [staged_filter_map_date, List.map_map]
  rfl

/-- C7: every record of a loaded ledger has a non-null parsed date: rows
whose raw date fails to parse are dropped during loading (the surviving
dates are, in order, exactly the parsable raw dates), never retained with a
placeholder, and the survivors are re-indexed sequentially (their count is
the count of parsable rows and the i-th record comes from the i-th
parsable raw row). -/
theorem load_date_invariant (rows : List RawRow) :
    (∀ r, r ∈ load_and_prepare_data rows → (r.date).isSome = true) ∧
    (load_and_prepare_data rows).map (fun r => r.date)
      = (rows.map (fun r => extract_date r.c0)).filter Option.isSome ∧
    (load_and_prepare_data rows).length = rows.countP (fun r => (extract_date r.c0).isSome) := by
  refine ⟨?_, load_map_date rows, ?_⟩
  · intro r hr
    have hmem : r.date ∈ (load_and_prepare_data rows).map (fun r => r.date) :=
      List.mem_map_of_mem _ hr
    rw [load_map_date] at hmem
    exact (List.mem_filter.mp hmem).2
  · have hlen := congrArg List.length (load_map_date rows)
    rw [List.length_map] at hlen
    rw [hlen, ← List.countP_eq_length_filter, List.countP_map]
    rfl

/-! ### Date aggregator properties -/

theorem countP_eq_ite_mem {α : Type} [DecidableEq α] (a : α) :
    ∀ ks : List α, ks.Nodup → (ks.countP (fun k => k = a) = if a ∈ ks then 1 else 0)
  | [], _ => by simp
  | k :: ks, hnd => by
    rcases List.nodup_cons.mp hnd with ⟨hk, hnd2⟩
    rw [List.countP_cons, countP_eq_ite_mem a ks hnd2]
    by_cases h : k = a
    · subst h
      rw [if_neg hk, if_pos (List.mem_cons_self k ks)]
      simp
    · simp only [List.mem_cons]
      by_cases h2 : a ∈ ks
      · simp [h, h2]
      · have hak : ¬ a = k := fun hc => h hc.symm
        simp [h, h2, hak]

theorem lookup_map_keys (g : CalDate → ℚ) (dd : CalDate) :
    ∀ ks : List CalDate,
      lookupSum (ks.map (fun k => (k, g k))) dd = if dd ∈ ks then some (g dd) else none
  | [] => rfl
  | k :: ks => by
    unfold lookupSum
    rw [List.map_cons, List.find?_cons]
    by_cases h : k = dd
    · subst h
      simp
    · have hd : (decide ((k, g k).1 = dd)) = false := by simpa using h
      rw [hd]
      have ih := lookup_map_keys g dd ks
      unfold lookupSum at ih
      rw [ih]
      have : ¬ dd = k := fun hc => h hc.symm
      simp only [List.mem_cons, this, false_or]

theorem mem_groupKeys (recs : List TransactionRecord) (dd : CalDate) :
    dd ∈ groupKeys recs ↔ ∃ r ∈ recs, r.date = some dd := by
  unfold groupKeys
  rw [(List.perm_insertionSort CalDate.le _).mem_iff, List.mem_dedup, List.mem_filterMap]

theorem mem_mergedKeys (df1 df2 : List TransactionRecord) (dd : CalDate) :
    dd ∈ mergedKeys df1 df2 ↔
      (∃ r ∈ df1, r.date = some dd) ∨ (∃ r ∈ df2, r.date = some dd) := by
  unfold mergedKeys
  rw [(List.perm_insertionSort CalDate.le _).mem_iff, List.mem_dedup, List.mem_append,
    mem_groupKeys, mem_groupKeys]

theorem nodup_mergedKeys (df1 df2 : List TransactionRecord) :
    (mergedKeys df1 df2).Nodup :=
  ((List.perm_insertionSort CalDate.le _).nodup_iff).mpr (List.nodup_dedup _)

theorem sorted_mergedKeys (df1 df2 : List TransactionRecord) :
    List.Sorted CalDate.le (mergedKeys df1 df2) :=
  List.sorted_insertionSort CalDate.le _

theorem dateSum_eq_zero_of_forall (recs : List TransactionRecord) (f : AmountField)
    (dd : CalDate) (h : ∀ r ∈ recs, r.date = some dd → r.field f = 0) :
    dateSum recs f dd = 0 := by
  unfold dateSum
  apply List.sum_eq_zero
  intro x hx
  rcases List.mem_map.mp hx with ⟨r, hr, rfl⟩
  have hmem := List.mem_filter.mp hr
  exact h r hmem.1 (by simpa using hmem.2)

theorem dateSum_eq_zero_of_absent (recs : List TransactionRecord) (f : AmountField)
    (dd : CalDate) (h : ∀ r ∈ recs, ¬ r.date = some dd) :
    dateSum recs f dd = 0 :=
  dateSum_eq_zero_of_forall recs f dd (fun r hr hd => absurd hd (h r hr))

theorem getD_lookup_groupSum (recs : List TransactionRecord) (f : AmountField) (dd : CalDate) :
    (lookupSum (groupSum recs f) dd).getD 0 = dateSum recs f dd := by
  unfold groupSum
  rw [lookup_map_keys]
  by_cases h : dd ∈ groupKeys recs
  · rw [if_pos h]
    rfl
  · rw [if_neg h]
    have habs : ∀ r ∈ recs, ¬ r.date = some dd := by
      intro r hr hc
      exact h ((mem_groupKeys recs dd).mpr ⟨r, hr, hc⟩)
    exact (dateSum_eq_zero_of_absent recs f dd habs).symm

/-- C5: the per-date aggregation returns exactly one row for every date
present in either ledger; a side with no records on a date contributes sum
0 rather than being absent; each row's difference is amount_a minus
amount_b and is_match holds exactly when the difference is 0; and the rows
are sorted ascending by date. -/
theorem aggregate_by_date_spec (df1 df2 : List TransactionRecord) (f1 f2 : AmountField) :
    (∀ dd : CalDate,
      (aggregate df1 f1 df2 f2).countP (fun row => row.date = dd)
        = if (∃ r ∈ df1, r.date = some dd) ∨ (∃ r ∈ df2, r.date = some dd) then 1 else 0) ∧
    (∀ row ∈ aggregate df1 f1 df2 f2,
      row.amount_a = dateSum df1 f1 row.date ∧
      row.amount_b = dateSum df2 f2 row.date ∧
      ((∀ r ∈ df1, ¬ r.date = some row.date) → row.amount_a = 0) ∧
      ((∀ r ∈ df2, ¬ r.date = some row.date) → row.amount_b = 0) ∧
      row.difference = row.amount_a - row.amount_b ∧
      (row.is_match = true ↔ row.difference = 0)) ∧
    ((aggregate df1 f1 df2 f2).map (fun row => row.date)).Pairwise CalDate.le := by
  refine ⟨?_, ?_, ?_⟩
  · intro dd
    unfold aggregate
    rw [List.countP_map]
    show (mergedKeys df1 df2).countP (fun k => k = dd) = _
    rw [countP_eq_ite_mem dd (mergedKeys df1 df2) (nodup_mergedKeys df1 df2)]
    by_cases h : dd ∈ mergedKeys df1 df2
    · rw [if_pos h, if_pos ((mem_mergedKeys df1 df2 dd).mp h)]
    · rw [if_neg h, if_neg (fun hc => h ((mem_mergedKeys df1 df2 dd).mpr hc))]
  · intro row hrow
    rcases List.mem_map.mp hrow with ⟨dd, hdd, rfl⟩
    refine ⟨?_, ?_, ?_, ?_, rfl, ?_⟩
    · exact getD_lookup_groupSum df1 f1 dd
    · exact getD_lookup_groupSum df2 f2 dd
    · intro habs
      show (lookupSum (groupSum df1 f1) dd).getD 0 = 0
      rw [getD_lookup_groupSum]
      exact dateSum_eq_zero_of_absent df1 f1 dd habs
    · intro habs
      show (lookupSum (groupSum df2 f2) dd).getD 0 = 0
      rw [getD_lookup_groupSum]
      exact dateSum_eq_zero_of_absent df2 f2 dd habs
    · show decide _ = true ↔ _
      simp only [decide_eq_true_eq]
      exact Iff.rfl
  · unfold aggregate
    rw [List.map_map]
    have hcomp : ((fun row : DateComparisonRow => row.date) ∘ aggRow df1 f1 df2 f2)
        = fun dd : CalDate => dd := rfl
    rw [hcomp, List.map_id']
    exact sorted_mergedKeys df1 df2

theorem aggregate_zero_side (df1 : List TransactionRecord) (f1 : AmountField)
    (df2 : List TransactionRecord) (f2 : AmountField) (dd : CalDate)
    (hmem : ∃ r ∈ df1, r.date = some dd) (hz : dateSum df1 f1 dd = 0) :
    ∃ row ∈ aggregate df1 f1 df2 f2, row.date = dd ∧ row.amount_a = 0 ∧
      (¬ dateSum df2 f2 dd = 0 → row.is_match = false) := by
  have hk : dd ∈ mergedKeys df1 df2 := (mem_mergedKeys df1 df2 dd).mpr (Or.inl hmem)
  refine ⟨aggRow df1 f1 df2 f2 dd, List.mem_map_of_mem _ hk, rfl, ?_, ?_⟩
  · show (lookupSum (groupSum df1 f1) dd).getD 0 = 0
    rw [getD_lookup_groupSum]
    exact hz
  · intro hb
    show decide _ = false
    rw [decide_eq_false_iff_not]
    rw [getD_lookup_groupSum, getD_lookup_groupSum, hz, zero_sub]
    simpa using hb

/-- C10: the per-date aggregation emits a row for every date on which a
ledger has at least one record even when that ledger's declared field sums
to 0 on that date; such a row carries amount 0 on that side and is flagged
as a mismatch whenever the other side's sum is nonzero. Stated for both
the forward run (compare_by_date) and the reverse run (comparison_reverse). -/
theorem zero_sum_date_row (df1 df2 : List TransactionRecord) (dd : CalDate) :
    ((∃ r ∈ df1, r.date = some dd) → (∀ r ∈ df1, r.date = some dd → r.sale_amount = 0) →
      ∃ row ∈ compare_by_date df1 df2, row.date = dd ∧ row.amount_a = 0 ∧
        (¬ dateSum df2 AmountField.purchase_amount dd = 0 → row.is_match = false)) ∧
    ((∃ r ∈ df2, r.date = some dd) → (∀ r ∈ df2, r.date = some dd → r.sale_amount = 0) →
      ∃ row ∈ comparison_reverse df1 df2, row.date = dd ∧ row.amount_a = 0 ∧
        (¬ dateSum df1 AmountField.purchase_amount dd = 0 → row.is_match = false)) := by
  constructor
  · intro hex hall
    exact aggregate_zero_side df1 AmountField.sale_amount df2 AmountField.purchase_amount dd hex
      (dateSum_eq_zero_of_forall df1 AmountField.sale_amount dd hall)
  · intro hex hall
    exact aggregate_zero_side df2 AmountField.sale_amount df1 AmountField.purchase_amount dd hex
      (dateSum_eq_zero_of_forall df2 AmountField.sale_amount dd hall)

/-! ### Concrete fixtures used to instantiate the theorems -/

def exDate : CalDate := ⟨2022, 1, 3⟩

/-- A ledger record on the fixture date with the given sale and purchase
amounts (the other amounts 0). -/
def exRec (s p : ℚ) : TransactionRecord :=
  { date := some exDate, product_info := RawValue.str "x", sale_amount := s,
    collection_amount := 0, purchase_amount := p, payment_amount := 0, balance := 0 }

def exRawGood : RawRow :=
  { c0 := RawValue.str "2022/01/03 -13", c1 := RawValue.str "item", c2 := RawValue.null,
    c3 := RawValue.null, c4 := RawValue.null, c5 := RawValue.null, c6 := RawValue.null }

def exRawBad : RawRow :=
  { c0 := RawValue.str "subtotal", c1 := RawValue.null, c2 := RawValue.null,
    c3 := RawValue.null, c4 := RawValue.null, c5 := RawValue.null, c6 := RawValue.null }

theorem load_date_invariant_witness :
    (finishRow (stageRow exRawGood)).date.isSome = true :=
  (load_date_invariant [exRawGood, exRawBad]).1 (finishRow (stageRow exRawGood)) (by decide)

theorem aggregate_by_date_spec_witness :
    (aggregate [exRec 5 0] AmountField.sale_amount
        [exRec 0 5] AmountField.purchase_amount).countP
      (fun row => row.date = exDate) = 1 := by
  have h := (aggregate_by_date_spec [exRec 5 0] [exRec 0 5]
    AmountField.sale_amount AmountField.purchase_amount).1 exDate
  rw [h, if_pos]
  exact Or.inl ⟨exRec 5 0, by decide, by decide⟩

theorem zero_sum_date_row_witness :
    ∃ row ∈ compare_by_date [exRec 0 0] [exRec 0 5], row.date = exDate ∧ row.amount_a = 0 ∧
      (¬ dateSum [exRec 0 5] AmountField.purchase_amount exDate = 0 → row.is_match = false) :=
  (zero_sum_date_row [exRec 0 0] [exRec 0 5] exDate).1 (by decide) (by decide)

/-! ### Transaction matcher: structural lemmas -/

theorem matchedRowsFor_length (n i1 : Nat) (r1 : TransactionRecord) (f1 f2 : AmountField)
    (ms : List (Nat × TransactionRecord)) :
    (matchedRowsFor n i1 r1 f1 f2 ms).length = ms.length := by
  simp [matchedRowsFor]

theorem leftoverRows_length (n : Nat) (f2 : AmountField)
    (rem : List (Nat × TransactionRecord)) :
    (leftoverRows n f2 rem).length = rem.length := by
  simp [leftoverRows]

theorem enumMap_map_id {β : Type} (xs : List β) (g : Nat × β → MatchResult) (n : Nat)
    (hg : ∀ q, (g q).match_id = n + q.1 + 1) :
    (xs.enum.map g).map (fun r => r.match_id) = List.range' (n + 1) xs.length := by
  rw [List.map_map]
  have h1 : ((fun r : MatchResult => r.match_id) ∘ g) = (fun q : Nat × β => n + q.1 + 1) :=
    funext fun q => hg q
  rw [h1]
  have h2 : (fun q : Nat × β => n + q.1 + 1) = ((fun k => n + k + 1) ∘ Prod.fst) := rfl
  rw [h2, ← List.map_map, List.enum_map_fst]
  have h3 : (fun k => n + k + 1) = fun k => (n + 1) + k := funext fun k => by omega
  rw [h3, ← List.range'_eq_map_range]

theorem matchedRowsFor_map_id (n i1 : Nat) (r1 : TransactionRecord) (f1 f2 : AmountField)
    (ms : List (Nat × TransactionRecord)) :
    (matchedRowsFor n i1 r1 f1 f2 ms).map (fun r => r.match_id)
      = List.range' (n + 1) ms.length :=
  enumMap_map_id ms _ n (fun _ => rfl)

theorem leftoverRows_map_id (n : Nat) (f2 : AmountField)
    (rem : List (Nat × TransactionRecord)) :
    (leftoverRows n f2 rem).map (fun r => r.match_id) = List.range' (n + 1) rem.length :=
  enumMap_map_id rem _ n (fun _ => rfl)

theorem pass1_map_id (df2f : List (Nat × TransactionRecord)) (f1 f2 : AmountField) :
    ∀ (l : List (Nat × TransactionRecord)) (n : Nat),
      ((pass1 df2f f1 f2 l n).1).map (fun r => r.match_id)
        = List.range' (n + 1) ((pass1 df2f f1 f2 l n).1).length
  | [], _ => rfl
  | p :: rest, n => by
    unfold pass1
    by_cases h : 0 < (matchingRows df2f f2 (p.2.field f1)).length
    · rw [if_pos h]
      simp only [List.map_append, List.length_append]
      rw [matchedRowsFor_map_id, pass1_map_id df2f f1 f2 rest _, matchedRowsFor_length]
      have harith : n + (matchingRows df2f f2 (p.2.field f1)).length + 1
          = (n + 1) + (matchingRows df2f f2 (p.2.field f1)).length := by omega
      rw [harith, List.range'_append_1]
      congr 1
      omega
    · rw [if_neg h]
      simp only [List.map_cons, List.length_cons]
      rw [pass1_map_id df2f f1 f2 rest _]
      show (n + 1) :: List.range' (n + 1 + 1) _ = _
      rw [List.range'_succ]

theorem emitted_map_id (df1 df2 : List TransactionRecord) (d : CalDate) (ct : CompareType) :
    (emittedRows df1 df2 d ct).map (fun r => r.match_id)
      = List.range' 1 (emittedRows df1 df2 d ct).length := by
  unfold emittedRows
  rw [List.map_append, pass1_map_id, leftoverRows_map_id, List.length_append,
    leftoverRows_length]
  have h1 : ∀ m : Nat, m + 1 = 1 + m := fun m => by omega
  rw [h1 ((pass1 (filteredByDate df2 d) (col1_file1 ct) (col1_file2 ct)
    (filteredByDate df1 d) 0).1.length), List.range'_append_1]
  congr 1
  omega

theorem status_order_matched : status_order Status.matched = 2 := rfl

theorem status_order_mismatched : status_order Status.mismatched = 0 := rfl

theorem status_order_unmatched : status_order Status.unmatched = 1 := rfl

theorem sortByStatus_perm : ∀ rows : List MatchResult,
    List.Perm (sortByStatus rows) rows
  | [] => List.Perm.refl _
  | a :: rows => by
    have ih := sortByStatus_perm rows
    unfold sortByStatus at ih ⊢
    cases ha : a.status
    · -- matched: sort key 2, a goes to the last bucket
      simp only [List.filter_cons, ha, status_order_matched]
      norm_num
      rw [← List.append_assoc]
      exact List.Perm.trans List.perm_middle (ih.cons a)
    · -- mismatched: sort key 0, a goes to the first bucket
      simp only [List.filter_cons, ha, status_order_mismatched]
      norm_num
      rw [← List.append_assoc]
      exact ih
    · -- unmatched: sort key 1, a goes to the middle bucket
      simp only [List.filter_cons, ha, status_order_unmatched]
      norm_num
      refine List.Perm.trans List.perm_middle ?_
      rw [← List.append_assoc]
      exact ih.cons a

theorem mem_emitted_of_mem_detail (df1 df2 : List TransactionRecord) (d : CalDate)
    (ct : CompareType) (mf : MatchFilter) (row : MatchResult)
    (h : row ∈ compare_transactions_detail df1 df2 d ct mf) :
    row ∈ emittedRows df1 df2 d ct := by
  unfold compare_transactions_detail at h
  have h2 : row ∈ applyFilter mf (emittedRows df1 df2 d ct) :=
    (sortByStatus_perm _).mem_iff.mp h
  cases mf
  · exact h2
  · exact List.mem_of_mem_filter h2
  · exact List.mem_of_mem_filter h2

theorem mem_snd_of_mem_enum {β : Type} {q : Nat × β} {l : List β} (h : q ∈ l.enum) :
    q.2 ∈ l := by
  have := List.mem_map_of_mem Prod.snd h
  rwa [List.enum_map_snd] at this

theorem pass1_status (df2f : List (Nat × TransactionRecord)) (f1 f2 : AmountField) :
    ∀ (l : List (Nat × TransactionRecord)) (n : Nat) (row : MatchResult),
      row ∈ (pass1 df2f f1 f2 l n).1 →
        row.status = Status.matched ∨ row.status = Status.unmatched
  | [], _, row, h => absurd h (by simp [pass1])
  | p :: rest, n, row, h => by
    unfold pass1 at h
    by_cases hc : 0 < (matchingRows df2f f2 (p.2.field f1)).length
    · rw [if_pos hc] at h
      rcases List.mem_append.mp h with h1 | h2
      · rcases List.mem_map.mp h1 with ⟨q, hq, rfl⟩
        left
        show (if p.2.field f1 = q.2.2.field f2 then Status.matched else Status.mismatched) = _
        rw [if_pos]
        have hq2 : q.2 ∈ matchingRows df2f f2 (p.2.field f1) := mem_snd_of_mem_enum hq
        have heq := List.of_mem_filter hq2
        simp only [decide_eq_true_eq] at heq
        exact heq.symm
      · exact pass1_status df2f f1 f2 rest _ row h2
    · rw [if_neg hc] at h
      rcases List.mem_cons.mp h with h1 | h2
      · subst h1
        right
        rfl
      · exact pass1_status df2f f1 f2 rest _ row h2

/-- C6: no output row of the matcher ever carries the status Mismatched: a
candidate pair is only emitted when the declared-field amounts are exactly
equal, so every pair row is Matched and every other row is Unmatched. -/
theorem no_mismatched_status (df1 df2 : List TransactionRecord) (d : CalDate)
    (ct : CompareType) (mf : MatchFilter) (row : MatchResult)
    (h : row ∈ compare_transactions_detail df1 df2 d ct mf) :
    ¬ row.status = Status.mismatched := by
  have hemit := mem_emitted_of_mem_detail df1 df2 d ct mf row h
  unfold emittedRows at hemit
  rcases List.mem_append.mp hemit with h1 | h2
  · rcases pass1_status _ _ _ _ _ row h1 with hs | hs <;> simp [hs]
  · rcases List.mem_map.mp h2 with ⟨q, _, rfl⟩
    simp [leftoverRows]

theorem no_mismatched_status_witness :
    ¬ (unmatchedRowA 0 0 (exRec 5 0) AmountField.sale_amount).status = Status.mismatched :=
  no_mismatched_status [exRec 5 0] [] exDate CompareType.salePurchase MatchFilter.all _
    (by decide)

/-! ### Counting helpers for rows carrying pandas labels -/

theorem countP_fst_nodup {β : Type} (j : Nat) (x : β) (p : Nat × β → Bool) :
    ∀ l : List (Nat × β), (l.map Prod.fst).Nodup → (j, x) ∈ l →
      l.countP (fun q => decide (q.1 = j) && p q) = if p (j, x) then 1 else 0
  | [], _, h => absurd h (List.not_mem_nil _)
  | q :: l, hnd, h => by
    rw [List.map_cons, List.nodup_cons] at hnd
    rw [List.countP_cons]
    rcases List.mem_cons.mp h with heq | hmem
    · rw [← heq] at hnd ⊢
      have htail : l.countP (fun q => decide (q.1 = j) && p q) = 0 := by
        rw [List.countP_eq_zero]
        intro a ha hc
        have ha1 : a.1 = j := by
          have := ((Bool.and_eq_true _ _).mp hc).1
          simpa using this
        have hfst : a.1 ∈ l.map Prod.fst := List.mem_map_of_mem Prod.fst ha
        rw [ha1] at hfst
        exact hnd.1 hfst
      rw [htail]
      by_cases hp : p (j, x) <;> simp [hp]
    · have hq1 : ¬ q.1 = j := by
        intro hc
        have : (j, x).1 ∈ l.map Prod.fst := List.mem_map_of_mem Prod.fst hmem
        exact hnd.1 (hc ▸ this)
      have hhead : (decide (q.1 = j) && p q) = false := by simp [hq1]
      rw [hhead]
      simp only [Bool.false_eq_true, if_false, Nat.add_zero]
      exact countP_fst_nodup j x p l hnd.2 hmem

theorem fst_unique {β : Type} (j : Nat) (x y : β) :
    ∀ l : List (Nat × β), (l.map Prod.fst).Nodup → (j, x) ∈ l → (j, y) ∈ l → x = y
  | q :: l, hnd, hx, hy => by
    rw [List.map_cons, List.nodup_cons] at hnd
    rcases List.mem_cons.mp hx with hx1 | hx2 <;> rcases List.mem_cons.mp hy with hy1 | hy2
    · have h2 : ((j : Nat), x) = ((j : Nat), y) := hx1.trans hy1.symm
      exact (Prod.ext_iff.mp h2).2
    · exfalso
      have : (j, y).1 ∈ l.map Prod.fst := List.mem_map_of_mem Prod.fst hy2
      rw [← hx1] at hnd
      exact hnd.1 this
    · exfalso
      have : (j, x).1 ∈ l.map Prod.fst := List.mem_map_of_mem Prod.fst hx2
      rw [← hy1] at hnd
      exact hnd.1 this
    · exact fst_unique j x y l hnd.2 hx2 hy2

theorem mem_matchingRows_iff (df2f : List (Nat × TransactionRecord)) (f2 : AmountField)
    (amt : ℚ) (j : Nat) (x : TransactionRecord) (h : (j, x) ∈ df2f) :
    (j, x) ∈ matchingRows df2f f2 amt ↔ x.field f2 = amt := by
  unfold matchingRows
  rw [List.mem_filter]
  simp [h]

theorem matchingRows_countP_fst (df2f : List (Nat × TransactionRecord)) (f2 : AmountField)
    (amt : ℚ) (j : Nat) (r2 : TransactionRecord) (hj : (j, r2) ∈ df2f)
    (hnd : (df2f.map Prod.fst).Nodup) :
    (matchingRows df2f f2 amt).countP (fun q => q.1 = j)
      = if r2.field f2 = amt then 1 else 0 := by
  unfold matchingRows
  rw [List.countP_filter]
  rw [countP_fst_nodup j r2 (fun q => decide (q.2.field f2 = amt)) df2f hnd hj]
  by_cases h : r2.field f2 = amt <;> simp [h]

theorem countP_enumMap {β : Type} (xs : List β) (g : Nat × β → MatchResult)
    (p : MatchResult → Bool) (gb : β → Bool) (hg : ∀ q, p (g q) = gb q.2) :
    (xs.enum.map g).countP p = xs.countP gb := by
  rw [List.countP_map]
  have h1 : (p ∘ g) = (fun q : Nat × β => gb q.2) := funext fun q => hg q
  rw [h1]
  have h2 : (fun q : Nat × β => gb q.2) = (gb ∘ Prod.snd) := rfl
  rw [h2, ← List.countP_map, List.enum_map_snd]

/-! ### Counting the appearances of each source row in the matcher output -/

theorem pass1_countP_idx2 (df2f : List (Nat × TransactionRecord)) (f1 f2 : AmountField)
    (j : Nat) (r2 : TransactionRecord) (hj : (j, r2) ∈ df2f)
    (hnd : (df2f.map Prod.fst).Nodup) :
    ∀ (l : List (Nat × TransactionRecord)) (n : Nat),
      ((pass1 df2f f1 f2 l n).1).countP (fun row => row.idx2 = some j)
        = l.countP (fun p => r2.field f2 = p.2.field f1)
  | [], _ => rfl
  | p :: rest, n => by
    unfold pass1
    rw [List.countP_cons]
    by_cases hc : 0 < (matchingRows df2f f2 (p.2.field f1)).length
    · rw [if_pos hc]
      dsimp only
      rw [List.countP_append]
      have hm : (matchedRowsFor n p.1 p.2 f1 f2
          (matchingRows df2f f2 (p.2.field f1))).countP (fun row => row.idx2 = some j)
            = (matchingRows df2f f2 (p.2.field f1)).countP (fun q => q.1 = j) := by
        apply countP_enumMap
        intro q
        show decide ((some q.2.1 : Option Nat) = some j) = decide (q.2.1 = j)
        simp
      rw [hm, matchingRows_countP_fst df2f f2 _ j r2 hj hnd,
        pass1_countP_idx2 df2f f1 f2 j r2 hj hnd rest _]
      by_cases heq : r2.field f2 = p.2.field f1 <;> simp [heq] <;> omega
    · rw [if_neg hc]
      dsimp only
      rw [List.countP_cons]
      have hfalse : (decide ((unmatchedRowA n p.1 p.2 f1).idx2 = some j)) = false := by
        simp [unmatchedRowA]
      rw [hfalse]
      have hempty : matchingRows df2f f2 (p.2.field f1) = [] :=
        List.length_eq_zero.mp (by omega)
      have hnm : ¬ r2.field f2 = p.2.field f1 := by
        intro hc2
        have hmem : (j, r2) ∈ matchingRows df2f f2 (p.2.field f1) :=
          (mem_matchingRows_iff df2f f2 _ j r2 hj).mpr hc2
        rw [hempty] at hmem
        exact absurd hmem (List.not_mem_nil _)
      rw [pass1_countP_idx2 df2f f1 f2 j r2 hj hnd rest _]
      simp [hnm]

theorem pass1_processed_iff (df2f : List (Nat × TransactionRecord)) (f1 f2 : AmountField)
    (j : Nat) (r2 : TransactionRecord) (hj : (j, r2) ∈ df2f)
    (hnd : (df2f.map Prod.fst).Nodup) :
    ∀ (l : List (Nat × TransactionRecord)) (n : Nat),
      (j ∈ (pass1 df2f f1 f2 l n).2 ↔ ∃ p ∈ l, r2.field f2 = p.2.field f1)
  | [], _ => by simp [pass1]
  | p :: rest, n => by
    unfold pass1
    by_cases hc : 0 < (matchingRows df2f f2 (p.2.field f1)).length
    · rw [if_pos hc]
      show j ∈ _ ++ _ ↔ _
      rw [List.mem_append, pass1_processed_iff df2f f1 f2 j r2 hj hnd rest _]
      constructor
      · rintro (hin | ⟨q, hq, hqe⟩)
        · rcases List.mem_map.mp hin with ⟨q, hq, hq1⟩
          have hq2 : q ∈ df2f := List.mem_of_mem_filter hq
          rcases q with ⟨j2, y⟩
          have hj2 : j2 = j := hq1
          subst hj2
          have hy : y = r2 := fst_unique j2 y r2 df2f hnd hq2 hj
          subst hy
          exact ⟨p, List.mem_cons_self p rest,
            ((mem_matchingRows_iff df2f f2 _ j2 y hq2).mp hq)⟩

        · exact ⟨q, List.mem_cons_of_mem p hq, hqe⟩
      · rintro ⟨q, hq, hqe⟩
        rcases List.mem_cons.mp hq with rfl | hq2
        · left
          have : (j, r2) ∈ matchingRows df2f f2 (q.2.field f1) :=
            (mem_matchingRows_iff df2f f2 _ j r2 hj).mpr hqe
          exact List.mem_map_of_mem Prod.fst this
        · right
          exact ⟨q, hq2, hqe⟩
    · rw [if_neg hc]
      rw [pass1_processed_iff df2f f1 f2 j r2 hj hnd rest _]
      have hempty : matchingRows df2f f2 (p.2.field f1) = [] :=
        List.length_eq_zero.mp (by omega)
      have hnm : ¬ r2.field f2 = p.2.field f1 := by
        intro hc2
        have hmem : (j, r2) ∈ matchingRows df2f f2 (p.2.field f1) :=
          (mem_matchingRows_iff df2f f2 _ j r2 hj).mpr hc2
        rw [hempty] at hmem
        exact absurd hmem (List.not_mem_nil _)
      constructor
      · rintro ⟨q, hq, hqe⟩
        exact ⟨q, List.mem_cons_of_mem p hq, hqe⟩
      · rintro ⟨q, hq, hqe⟩
        rcases List.mem_cons.mp hq with rfl | hq2
        · exact absurd hqe hnm
        · exact ⟨q, hq2, hqe⟩

theorem nodup_fst_filteredByDate (df : List TransactionRecord) (d : CalDate) :
    ((filteredByDate df d).map Prod.fst).Nodup := by
  unfold filteredByDate
  have hsub : List.Sublist ((df.enum.filter (fun p => p.2.date = some d)).map Prod.fst)
      (df.enum.map Prod.fst) := (List.filter_sublist _).map Prod.fst
  have hnd : (df.enum.map Prod.fst).Nodup := by
    rw [List.enum_map_fst]
    exact List.nodup_range _
  exact hsub.nodup hnd

theorem leftoverRows_countP_idx2 (n : Nat) (f2 : AmountField)
    (rem : List (Nat × TransactionRecord)) (j : Nat) :
    (leftoverRows n f2 rem).countP (fun row => row.idx2 = some j)
      = rem.countP (fun q => q.1 = j) := by
  apply countP_enumMap
  intro q
  show decide ((some q.2.1 : Option Nat) = some j) = decide (q.2.1 = j)
  simp

theorem leftoverRows_idx1_none (n : Nat) (f2 : AmountField)
    (rem : List (Nat × TransactionRecord)) (row : MatchResult)
    (h : row ∈ leftoverRows n f2 rem) : row.idx1 = none := by
  rcases List.mem_map.mp h with ⟨q, _, rfl⟩
  rfl

theorem remaining_countP_fst (df2f : List (Nat × TransactionRecord))
    (processed : List Nat) (j : Nat) (r2 : TransactionRecord)
    (hj : (j, r2) ∈ df2f) (hnd : (df2f.map Prod.fst).Nodup) :
    (df2f.filter (fun q => ¬ q.1 ∈ processed)).countP (fun q => q.1 = j)
      = if j ∈ processed then 0 else 1 := by
  rw [List.countP_filter]
  rw [countP_fst_nodup j r2 (fun q => decide (¬ q.1 ∈ processed)) df2f hnd hj]
  by_cases h : j ∈ processed <;> simp [h]

theorem pass1_rows_idx1 (df2f : List (Nat × TransactionRecord)) (f1 f2 : AmountField) :
    ∀ (l : List (Nat × TransactionRecord)) (n : Nat) (row : MatchResult),
      row ∈ (pass1 df2f f1 f2 l n).1 →
        ∃ p ∈ l, row.idx1 = some p.1 ∧
          ((matchingRows df2f f2 (p.2.field f1)).length = 0 →
            row.desc2 = RawValue.str "-" ∧ row.amt2 = 0 ∧ row.status = Status.unmatched)
  | [], _, row, h => absurd h (by simp [pass1])
  | p :: rest, n, row, h => by
    unfold pass1 at h
    by_cases hc : 0 < (matchingRows df2f f2 (p.2.field f1)).length
    · rw [if_pos hc] at h
      dsimp only at h
      rcases List.mem_append.mp h with h1 | h2
      · rcases List.mem_map.mp h1 with ⟨q, _, rfl⟩
        exact ⟨p, List.mem_cons_self p rest, rfl, fun hlen => absurd hlen (by omega)⟩
      · rcases pass1_rows_idx1 df2f f1 f2 rest _ row h2 with ⟨p2, hp2, hrest⟩
        exact ⟨p2, List.mem_cons_of_mem p hp2, hrest⟩
    · rw [if_neg hc] at h
      dsimp only at h
      rcases List.mem_cons.mp h with heq | h2
      · subst heq
        exact ⟨p, List.mem_cons_self p rest, rfl, fun _ => ⟨rfl, rfl, rfl⟩⟩
      · rcases pass1_rows_idx1 df2f f1 f2 rest _ row h2 with ⟨p2, hp2, hrest⟩
        exact ⟨p2, List.mem_cons_of_mem p hp2, hrest⟩

theorem pass1_countP_idx1_zero (df2f : List (Nat × TransactionRecord)) (f1 f2 : AmountField)
    (i1 : Nat) (l : List (Nat × TransactionRecord)) (n : Nat)
    (h : ¬ i1 ∈ l.map Prod.fst) :
    ((pass1 df2f f1 f2 l n).1).countP (fun row => row.idx1 = some i1) = 0 := by
  rw [List.countP_eq_zero]
  intro row hrow hc
  rcases pass1_rows_idx1 df2f f1 f2 l n row hrow with ⟨p, hp, hidx, _⟩
  have hpi : p.1 = i1 := by
    rw [hidx] at hc
    simpa using hc
  exact h (hpi ▸ List.mem_map_of_mem Prod.fst hp)

theorem pass1_countP_idx1 (df2f : List (Nat × TransactionRecord)) (f1 f2 : AmountField)
    (i1 : Nat) (r1 : TransactionRecord) :
    ∀ (l : List (Nat × TransactionRecord)) (n : Nat), (i1, r1) ∈ l →
      (l.map Prod.fst).Nodup →
      ((pass1 df2f f1 f2 l n).1).countP (fun row => row.idx1 = some i1)
        = max 1 (matchingRows df2f f2 (r1.field f1)).length
  | [], _, h, _ => absurd h (List.not_mem_nil _)
  | p :: rest, n, h, hnd => by
    rw [List.map_cons, List.nodup_cons] at hnd
    unfold pass1
    rcases List.mem_cons.mp h with heq | hmem
    · subst heq
      by_cases hc : 0 < (matchingRows df2f f2 (r1.field f1)).length
      · rw [if_pos hc]
        dsimp only
        rw [List.countP_append]
        have hm : (matchedRowsFor n i1 r1 f1 f2
            (matchingRows df2f f2 (r1.field f1))).countP (fun row => row.idx1 = some i1)
              = (matchingRows df2f f2 (r1.field f1)).countP (fun _ => true) := by
          apply countP_enumMap
          intro q
          show decide ((some i1 : Option Nat) = some i1) = true
          simp
        have htrue : (matchingRows df2f f2 (r1.field f1)).countP (fun _ => true)
            = (matchingRows df2f f2 (r1.field f1)).length := by simp
        rw [hm, htrue, pass1_countP_idx1_zero df2f f1 f2 i1 rest _ hnd.1]
        omega
      · rw [if_neg hc]
        dsimp only
        rw [List.countP_cons, pass1_countP_idx1_zero df2f f1 f2 i1 rest _ hnd.1]
        have hh : (decide ((unmatchedRowA n i1 r1 f1).idx1 = some i1)) = true := by
          simp [unmatchedRowA]
        rw [hh]
        simp only [if_pos]
        omega
    · have hp1 : ¬ p.1 = i1 := by
        intro hc
        have : (i1, r1).1 ∈ rest.map Prod.fst := List.mem_map_of_mem Prod.fst hmem
        exact hnd.1 (hc ▸ this)
      by_cases hc : 0 < (matchingRows df2f f2 (p.2.field f1)).length
      · rw [if_pos hc]
        dsimp only
        rw [List.countP_append]
        have hm0 : (matchedRowsFor n p.1 p.2 f1 f2
            (matchingRows df2f f2 (p.2.field f1))).countP (fun row => row.idx1 = some i1)
              = (matchingRows df2f f2 (p.2.field f1)).countP (fun _ => false) := by
          apply countP_enumMap
          intro q
          show decide ((some p.1 : Option Nat) = some i1) = false
          simp [hp1]
        have hfalse : (matchingRows df2f f2 (p.2.field f1)).countP (fun _ => false) = 0 := by
          simp
        rw [hm0, hfalse, pass1_countP_idx1 df2f f1 f2 i1 r1 rest _ hmem hnd.2]
        omega
      · rw [if_neg hc]
        dsimp only
        rw [List.countP_cons, pass1_countP_idx1 df2f f1 f2 i1 r1 rest _ hmem hnd.2]
        have hh : (decide ((unmatchedRowA n p.1 p.2 f1).idx1 = some i1)) = false := by
          simp [unmatchedRowA, hp1]
        rw [hh]
        simp

theorem pass1_countP_isSome (df2f : List (Nat × TransactionRecord)) (f1 f2 : AmountField) :
    ∀ (l : List (Nat × TransactionRecord)) (n : Nat),
      ((pass1 df2f f1 f2 l n).1).countP (fun row => row.idx1.isSome)
        = (l.map (fun p => max 1 (matchingRows df2f f2 (p.2.field f1)).length)).sum
  | [], _ => rfl
  | p :: rest, n => by
    unfold pass1
    rw [List.map_cons, List.sum_cons]
    by_cases hc : 0 < (matchingRows df2f f2 (p.2.field f1)).length
    · rw [if_pos hc]
      dsimp only
      rw [List.countP_append]
      have hm : (matchedRowsFor n p.1 p.2 f1 f2
          (matchingRows df2f f2 (p.2.field f1))).countP (fun row => row.idx1.isSome)
            = (matchingRows df2f f2 (p.2.field f1)).countP (fun _ => true) := by
        apply countP_enumMap
        intro q
        rfl
      have htrue : (matchingRows df2f f2 (p.2.field f1)).countP (fun _ => true)
          = (matchingRows df2f f2 (p.2.field f1)).length := by simp
      rw [hm, htrue, pass1_countP_isSome df2f f1 f2 rest _]
      omega
    · rw [if_neg hc]
      dsimp only
      rw [List.countP_cons, pass1_countP_isSome df2f f1 f2 rest _]
      have hh : ((unmatchedRowA n p.1 p.2 f1).idx1.isSome) = true := rfl
      rw [hh]
      simp only [if_pos]
      omega

/-! ### Claim theorems about the matcher -/

/-- C1 (amended): in the unfiltered matcher output, every ledgerB record of
the query date appears at least once and never zero times: exactly once per
ledgerA filtered record with an equal declared-field amount when any
exists, and otherwise exactly once as a leftover Unmatched row — so its
appearance count is max 1 N where N is the number of equal-amount ledgerA
records. In particular it appears exactly once whenever N is at most 1,
but more than once when several ledgerA records share its amount. -/
theorem ledgerB_coverage (df1 df2 : List TransactionRecord) (d : CalDate)
    (ct : CompareType) (j : Nat) (r2 : TransactionRecord)
    (hj : (j, r2) ∈ filteredByDate df2 d) :
    (compare_transactions_detail df1 df2 d ct MatchFilter.all).countP
        (fun row => row.idx2 = some j)
      = max 1 ((filteredByDate df1 d).countP
          (fun p => r2.field (col1_file2 ct) = p.2.field (col1_file1 ct))) := by
  have hnd := nodup_fst_filteredByDate df2 d
  have hperm : List.Perm (compare_transactions_detail df1 df2 d ct MatchFilter.all)
      (emittedRows df1 df2 d ct) := sortByStatus_perm _
  rw [hperm.countP_eq]
  unfold emittedRows
  rw [List.countP_append,
    pass1_countP_idx2 (filteredByDate df2 d) (col1_file1 ct) (col1_file2 ct) j r2 hj hnd _ 0,
    leftoverRows_countP_idx2,
    remaining_countP_fst (filteredByDate df2 d) _ j r2 hj hnd]
  by_cases hin : j ∈ (pass1 (filteredByDate df2 d) (col1_file1 ct) (col1_file2 ct)
      (filteredByDate df1 d) 0).2
  · rw [if_pos hin]
    have hex := (pass1_processed_iff (filteredByDate df2 d) (col1_file1 ct) (col1_file2 ct)
      j r2 hj hnd _ 0).mp hin
    have hpos : 0 < (filteredByDate df1 d).countP
        (fun p => r2.field (col1_file2 ct) = p.2.field (col1_file1 ct)) := by
      rw [List.countP_pos_iff]
      rcases hex with ⟨p, hp, he⟩
      exact ⟨p, hp, by simpa using he⟩
    omega
  · rw [if_neg hin]
    have hnone : ¬ ∃ p ∈ filteredByDate df1 d,
        r2.field (col1_file2 ct) = p.2.field (col1_file1 ct) := fun hc =>
      hin ((pass1_processed_iff (filteredByDate df2 d) (col1_file1 ct) (col1_file2 ct)
        j r2 hj hnd _ 0).mpr hc)
    have hzero : (filteredByDate df1 d).countP
        (fun p => r2.field (col1_file2 ct) = p.2.field (col1_file1 ct)) = 0 := by
      rw [List.countP_eq_zero]
      intro a ha hc
      exact hnone ⟨a, ha, by simpa using hc⟩
    rw [hzero]
    omega

theorem ledgerB_coverage_witness :
    (compare_transactions_detail [exRec 5 0] [exRec 0 5] exDate
        CompareType.salePurchase MatchFilter.all).countP
        (fun row => row.idx2 = some 0)
      = max 1 ((filteredByDate [exRec 5 0] exDate).countP
          (fun p => (exRec 0 5).field (col1_file2 CompareType.salePurchase)
            = p.2.field (col1_file1 CompareType.salePurchase))) :=
  ledgerB_coverage [exRec 5 0] [exRec 0 5] exDate CompareType.salePurchase 0 (exRec 0 5)
    (by decide)

/-- C1 counterexample: two ledgerA records with sale amount 5 and one
ledgerB record with purchase amount 5; the single ledgerB record appears in
two Matched rows of the unfiltered output, refuting "never more than
once". -/
theorem ledgerB_coverage_cex :
    (compare_transactions_detail [exRec 5 0, exRec 5 0] [exRec 0 5] exDate
        CompareType.salePurchase MatchFilter.all).countP
      (fun row => row.idx2 = some 0) = 2 := by
  decide

/-- C3 (amended): in the unfiltered matcher output, the count of rows in
which the ledgerA side is present equals the sum over ledgerA filtered
records of max 1 N (N the number of equal-amount ledgerB records) — which
exceeds the ledgerA filtered count when some record fans out into several
rows; every ledgerA record appears in exactly the rows it generated (one
row if it has no counterpart, N rows if N ledgerB records share its
amount), and when it has no counterpart its rows have ledgerB description
"-", amount 0 and status Unmatched. -/
theorem ledgerA_conservation (df1 df2 : List TransactionRecord) (d : CalDate)
    (ct : CompareType) :
    ((compare_transactions_detail df1 df2 d ct MatchFilter.all).countP
        (fun row => row.idx1.isSome)
      = ((filteredByDate df1 d).map (fun p =>
          max 1 (matchingRows (filteredByDate df2 d) (col1_file2 ct)
            (p.2.field (col1_file1 ct))).length)).sum) ∧
    ∀ i1 r1, (i1, r1) ∈ filteredByDate df1 d →
      ((compare_transactions_detail df1 df2 d ct MatchFilter.all).countP
          (fun row => row.idx1 = some i1)
        = max 1 (matchingRows (filteredByDate df2 d) (col1_file2 ct)
            (r1.field (col1_file1 ct))).length) ∧
      (matchingRows (filteredByDate df2 d) (col1_file2 ct) (r1.field (col1_file1 ct)) = [] →
        ∀ row ∈ compare_transactions_detail df1 df2 d ct MatchFilter.all,
          row.idx1 = some i1 →
            row.desc2 = RawValue.str "-" ∧ row.amt2 = 0 ∧ row.status = Status.unmatched) := by
  have hperm : List.Perm (compare_transactions_detail df1 df2 d ct MatchFilter.all)
      (emittedRows df1 df2 d ct) := sortByStatus_perm _
  constructor
  · rw [hperm.countP_eq]
    unfold emittedRows
    rw [List.countP_append, pass1_countP_isSome]
    have hleft : (leftoverRows
        (pass1 (filteredByDate df2 d) (col1_file1 ct) (col1_file2 ct)
          (filteredByDate df1 d) 0).1.length (col1_file2 ct)
        ((filteredByDate df2 d).filter (fun q =>
          ¬ q.1 ∈ (pass1 (filteredByDate df2 d) (col1_file1 ct) (col1_file2 ct)
            (filteredByDate df1 d) 0).2))).countP (fun row => row.idx1.isSome) = 0 := by
      rw [List.countP_eq_zero]
      intro row hrow hc
      rw [leftoverRows_idx1_none _ _ _ row hrow] at hc
      exact absurd hc (by simp)
    rw [hleft]
    omega
  · intro i1 r1 hmem
    constructor
    · rw [hperm.countP_eq]
      unfold emittedRows
      rw [List.countP_append,
        pass1_countP_idx1 (filteredByDate df2 d) (col1_file1 ct) (col1_file2 ct) i1 r1 _ 0
          hmem (nodup_fst_filteredByDate df1 d)]
      have hleft : (leftoverRows
          (pass1 (filteredByDate df2 d) (col1_file1 ct) (col1_file2 ct)
            (filteredByDate df1 d) 0).1.length (col1_file2 ct)
          ((filteredByDate df2 d).filter (fun q =>
            ¬ q.1 ∈ (pass1 (filteredByDate df2 d) (col1_file1 ct) (col1_file2 ct)
              (filteredByDate df1 d) 0).2))).countP (fun row => row.idx1 = some i1) = 0 := by
        rw [List.countP_eq_zero]
        intro row hrow hc
        rw [leftoverRows_idx1_none _ _ _ row hrow] at hc
        exact absurd hc (by simp)
      rw [hleft]
      omega
    · intro hempty row hrow hidx
      have hemit : row ∈ emittedRows df1 df2 d ct :=
        mem_emitted_of_mem_detail df1 df2 d ct MatchFilter.all row hrow
      unfold emittedRows at hemit
      rcases List.mem_append.mp hemit with h1 | h2
      · rcases pass1_rows_idx1 (filteredByDate df2 d) (col1_file1 ct) (col1_file2 ct)
          _ 0 row h1 with ⟨p, hp, hpidx, hshape⟩
        rcases p with ⟨i2, y⟩
        have hi2 : i2 = i1 := by
          rw [hpidx] at hidx
          simpa using hidx
        subst hi2
        have hy : y = r1 :=
          fst_unique i2 y r1 (filteredByDate df1 d) (nodup_fst_filteredByDate df1 d) hp hmem
        subst hy
        exact hshape (by rw [hempty]; rfl)
      · have := leftoverRows_idx1_none _ _ _ row h2
        rw [this] at hidx
        exact absurd hidx (by simp)

theorem ledgerA_conservation_witness :
    (compare_transactions_detail [exRec 5 0] [] exDate CompareType.salePurchase
        MatchFilter.all).countP (fun row => row.idx1 = some 0)
      = max 1 (matchingRows (filteredByDate [] exDate) AmountField.purchase_amount
          ((exRec 5 0).field AmountField.sale_amount)).length :=
  ((ledgerA_conservation [exRec 5 0] [] exDate CompareType.salePurchase).2 0 (exRec 5 0)
    (by decide)).1

/-- C3 counterexample: one ledgerA record with sale amount 5 and two
ledgerB records with purchase amount 5; the unfiltered output has two rows
with the ledgerA side present though only one ledgerA record is filtered
to the date, refuting the claimed count equality. -/
theorem ledgerA_conservation_cex :
    ((compare_transactions_detail [exRec 5 0] [exRec 0 5, exRec 0 5] exDate
        CompareType.salePurchase MatchFilter.all).countP
      (fun row => row.idx1.isSome) = 2) ∧
    (filteredByDate [exRec 5 0] exDate).length = 1 :=
  ⟨by decide, by decide⟩

/-- C2 (amended): match_id values are assigned sequentially (1-based) at
emission time — the k-th emitted row carries match_id k — and are preserved
unchanged through the status filter and the status sort, so an output
row's match_id names its position in the original emission order, not its
displayed position. -/
theorem match_id_emission_order (df1 df2 : List TransactionRecord) (d : CalDate)
    (ct : CompareType) (mf : MatchFilter) :
    ((emittedRows df1 df2 d ct).map (fun r => r.match_id)
        = List.range' 1 (emittedRows df1 df2 d ct).length) ∧
    ∀ row ∈ compare_transactions_detail df1 df2 d ct mf,
      (emittedRows df1 df2 d ct)[row.match_id - 1]? = some row := by
  refine ⟨emitted_map_id df1 df2 d ct, ?_⟩
  intro row hrow
  have hmem : row ∈ emittedRows df1 df2 d ct :=
    mem_emitted_of_mem_detail df1 df2 d ct mf row hrow
  rcases List.mem_iff_getElem.mp hmem with ⟨k, hk, hget⟩
  have hid : row.match_id = 1 + k := by
    have h2 : ((emittedRows df1 df2 d ct).map (fun r => r.match_id))[k]?
        = some row.match_id := by
      rw [List.getElem?_map, List.getElem?_eq_getElem hk, hget]
      rfl
    rw [emitted_map_id df1 df2 d ct] at h2
    have h3 : (List.range' 1 (emittedRows df1 df2 d ct).length)[k]? = some (1 + k) := by
      rw [List.getElem?_eq_getElem (by simpa using hk)]
      simp
    rw [h3] at h2
    exact (Option.some.inj h2).symm
  rw [hid]
  have hsub : 1 + k - 1 = k := by omega
  rw [hsub, List.getElem?_eq_getElem hk, hget]

theorem match_id_emission_order_witness :
    (emittedRows [exRec 5 0] [] exDate CompareType.salePurchase)[
        (unmatchedRowA 0 0 (exRec 5 0) AmountField.sale_amount).match_id - 1]?
      = some (unmatchedRowA 0 0 (exRec 5 0) AmountField.sale_amount) :=
  (match_id_emission_order [exRec 5 0] [] exDate CompareType.salePurchase MatchFilter.all).2
    (unmatchedRowA 0 0 (exRec 5 0) AmountField.sale_amount) (by decide)

/-- C2 counterexample: one ledgerA record with sale amount 5 and ledgerB
records with purchase amounts 5 and 7; the sorted unfiltered output lists
the leftover Unmatched row first, and its match_id is 2 while the second
row carries 1 — the i-th displayed row does not carry match_id i, refuting
the claimed renumbering after filter and sort. -/
theorem match_id_renumber_cex :
    (compare_transactions_detail [exRec 5 0] [exRec 0 5, exRec 0 7] exDate
        CompareType.salePurchase MatchFilter.all).map (fun r => r.match_id) = [2, 1] := by
  decide

end LedgerCompare
